import Mathlib

/-!
Shallow embedding of the GLOWYAPI repository (src/app/main.py).

Python strings are modelled as lists of code points (`List Nat`) with the
ASCII case operations that `str.strip`, `str.title` and `str.lower` perform
on the data relevant here.  Python floats are modelled as exact rationals;
`round(x, 2)` is round-half-to-even at two decimal places.  Python ints are
`Int`.  The MySQL-backed persistence layer (app/database.py) is not among
the sources, so its five operations are modelled from the spec, each marked
by a doc comment.
-/

namespace Glowy

/-- A Python string as a list of code points. -/
abbrev PyStr := List Nat

/-- Code points of a Lean string literal, to write concrete Python strings. -/
def strLit (s : String) : PyStr := s.data.map Char.toNat

/-- ASCII whitespace, as stripped by Python `str.strip()`. -/
def isSpaceCode (c : Nat) : Bool := decide (c = 32 ∨ (9 ≤ c ∧ c ≤ 13))

/-- ASCII lower-casing of one code point (Python `str.lower` on ASCII data). -/
def toLowerCode (c : Nat) : Nat := if 65 ≤ c ∧ c ≤ 90 then c + 32 else c

/-- ASCII upper-casing of one code point. -/
def toUpperCode (c : Nat) : Nat := if 97 ≤ c ∧ c ≤ 122 then c - 32 else c

/-- ASCII cased (alphabetic) code point, the word-boundary test of `str.title`. -/
def isAlphaCode (c : Nat) : Bool := decide ((65 ≤ c ∧ c ≤ 90) ∨ (97 ≤ c ∧ c ≤ 122))

/-- Python `s.lower()` on ASCII data. -/
def pyLower (s : PyStr) : PyStr := s.map toLowerCode

/-- Python `s.strip()`: drop leading and trailing whitespace. -/
def pyStrip (s : PyStr) : PyStr :=
  ((s.dropWhile isSpaceCode).reverse.dropWhile isSpaceCode).reverse

/-- Worker for `pyTitle`; the Bool says whether the previous character was cased. -/
def titleAux : Bool → PyStr → PyStr
  | _, [] => []
  | prev, c :: cs =>
    (if isAlphaCode c then (if prev then toLowerCode c else toUpperCode c) else c)
      :: titleAux (isAlphaCode c) cs

/-- Python `s.title()` on ASCII data: first cased character of each word
upper-cased, the remaining cased characters lower-cased. -/
def pyTitle (s : PyStr) : PyStr := titleAux false s

/-- Python `round` at scale 0 on an exact rational: nearest integer, ties to even. -/
def roundHalfEven (q : ℚ) : ℤ :=
  let n : ℤ := ⌊q⌋
  if q - n < 1/2 then n
  else if 1/2 < q - n then n + 1
  else if n % 2 = 0 then n else n + 1

/-- Python `round(q, 2)` on an exact rational. -/
def pyRound2 (q : ℚ) : ℚ := (roundHalfEven (q * 100) : ℚ) / 100

/-- A `ValueError` message. -/
abbrev PyErr := String

/-- `ProductoBase.validar_nombre` (src/app/main.py lines 28-43). -/
def validar_nombre (v : PyStr) : Except PyErr PyStr :=
  if v = [] ∨ pyStrip v = [] then .error "El nombre no puede estar vacio"
  else if (pyStrip v).length < 3 then
    .error "El nombre debe tener al menos 3 caracteres"
  else if (pyStrip v).length > 150 then
    .error "El nombre no puede exceder 150 caracteres"
  else .ok (pyStrip v)

/-- The fixed category list of `validar_categoria` (src/app/main.py lines 54-58). -/
def categorias_validas : List PyStr :=
  [strLit "Serum", strLit "Cleanser", strLit "Moisturizer",
   strLit "Toner", strLit "Sunscreen", strLit "Mask", strLit "Exfoliator",
   strLit "Eye Cream", strLit "Ampoule", strLit "Essence"]

/-- `ProductoBase.validar_categoria` (src/app/main.py lines 45-66). -/
def validar_categoria (v : PyStr) : Except PyErr PyStr :=
  if v = [] ∨ pyStrip v = [] then .error "La categoria no puede estar vacia"
  else if pyTitle (pyStrip v) ∈ categorias_validas then .ok (pyTitle (pyStrip v))
  else .error "Categoria no valida"

/-- `ProductoBase.validar_precio` (src/app/main.py lines 68-79): bounds on the
raw value, then rounding to two decimals. -/
def validar_precio (v : ℚ) : Except PyErr ℚ :=
  if v ≤ 0 then .error "El precio debe ser mayor a 0"
  else if v > 999.99 then .error "El precio no puede exceder 999.99"
  else .ok (pyRound2 v)

/-- `ProductoBase.validar_stock` (src/app/main.py lines 81-91). -/
def validar_stock (v : ℤ) : Except PyErr ℤ :=
  if v < 0 then .error "El stock no puede ser negativo"
  else if v > 9999 then .error "El stock no puede exceder 9999 unidades"
  else .ok v

/-- `ProductoBase.validar_descripcion` (src/app/main.py lines 93-105). -/
def validar_descripcion : Option PyStr → Except PyErr (Option PyStr)
  | none => .ok none
  | some s =>
    if pyStrip s = [] then .ok none
    else if (pyStrip s).length > 500 then
      .error "La descripcion no puede exceder 500 caracteres"
    else .ok (some (pyStrip s))

/-- The five fields of `ProductoBase` (src/app/main.py lines 21-26); the same
shape serves as the raw request body and as the validated/stored row data. -/
structure Datos where
  nombre : PyStr
  categoria : PyStr
  precio : ℚ
  stock : ℤ
  descripcion : Option PyStr
deriving DecidableEq, Repr

/-- The five validated fields of `ProductoBase`, by declaration order. -/
inductive Campo
  | nombre | categoria | precio | stock | descripcion
deriving DecidableEq, Repr

/-- The error message of a validator result, if any. -/
def errOpt : Except PyErr α → Option PyErr
  | .error e => some e
  | .ok _ => none

/-- The result message of the field validator for one field of the payload. -/
def fieldMsg (d : Datos) : Campo → Option PyErr
  | .nombre => errOpt (validar_nombre d.nombre)
  | .categoria => errOpt (validar_categoria d.categoria)
  | .precio => errOpt (validar_precio d.precio)
  | .stock => errOpt (validar_stock d.stock)
  | .descripcion => errOpt (validar_descripcion d.descripcion)

/-- The fields in pydantic declaration order. -/
def campos : List Campo := [.nombre, .categoria, .precio, .stock, .descripcion]

/-- The aggregated list of (field, message) validation errors that pydantic
reports for a payload: every failing field with its message. -/
def erroresDe (d : Datos) : List (Campo × PyErr) :=
  campos.filterMap (fun c => (fieldMsg d c).map (fun m => (c, m)))

/-- Constructing a `ProductoBase`/`ProductoCreate`/`ProductoUpdate` model:
pydantic runs every field validator and either yields the normalized payload
or the aggregated error list. -/
def validarProducto (d : Datos) : Except (List (Campo × PyErr)) Datos :=
  match validar_nombre d.nombre, validar_categoria d.categoria,
        validar_precio d.precio, validar_stock d.stock,
        validar_descripcion d.descripcion with
  | .ok n, .ok c, .ok p, .ok st, .ok de => .ok ⟨n, c, p, st, de⟩
  | _, _, _, _, _ => .error (erroresDe d)

/-- The `Producto` response model (src/app/main.py lines 119-120): the
validated fields plus the id. -/
structure Producto where
  id : Nat
  datos : Datos
deriving DecidableEq, Repr

/-- Constructing a `Producto` instance from an id and row data: pydantic
re-runs all field validators on the data (src/app/main.py line 119). -/
def mkProducto (pid : Nat) (d : Datos) : Except (List (Campo × PyErr)) Producto :=
  match validarProducto d with
  | .ok f => .ok ⟨pid, f⟩
  | .error es => .error es

/-- Modelled from the spec: app/database.py is not among the sources.  The
product table plus the auto-increment counter for fresh ids. -/
structure Store where
  rows : List (Nat × Datos)
  nextId : Nat
deriving DecidableEq, Repr

/-- The store of a fresh deployment: empty table, ids start at 1. -/
def glowyInit : Store := ⟨[], 1⟩

/-- Modelled from the spec: `insert_producto` of app/database.py persists a new
row, assigns and returns a fresh id never assigned before (no id reuse, also
after deletions). -/
def insert_producto (s : Store) (d : Datos) : Nat × Store :=
  (s.nextId, ⟨s.rows ++ [(s.nextId, d)], s.nextId + 1⟩)

/-- Modelled from the spec: `fetch_producto_by_id` of app/database.py returns
the row with the given id, or nothing when no row matches. -/
def fetch_producto_by_id (s : Store) (pid : Nat) : Option (Nat × Datos) :=
  s.rows.find? (fun r => r.1 == pid)

/-- Modelled from the spec: `fetch_all_productos` of app/database.py returns
all rows. -/
def fetch_all_productos (s : Store) : List (Nat × Datos) := s.rows

/-- Modelled from the spec: `update_producto` of app/database.py overwrites all
mutable fields of the row with the given id and reports success, or reports
failure and performs no write when no row matches. -/
def update_producto (s : Store) (pid : Nat) (d : Datos) : Store × Bool :=
  if s.rows.any (fun r => r.1 == pid) then
    (⟨s.rows.map (fun r => if r.1 == pid then (pid, d) else r), s.nextId⟩, true)
  else (s, false)

/-- Modelled from the spec: `delete_producto` of app/database.py removes the
row with the given id and reports success, or reports failure and performs no
write when no row matches. -/
def delete_producto (s : Store) (pid : Nat) : Store × Bool :=
  if s.rows.any (fun r => r.1 == pid) then
    (⟨s.rows.filter (fun r => !(r.1 == pid)), s.nextId⟩, true)
  else (s, false)

/-- The caller-visible failures: 404 not-found, the aggregated 422 validation
error produced before a handler runs, and the 500 raised when building the
response model fails. -/
inductive ApiError
  | notFound
  | validation (es : List (Campo × PyErr))
  | serverError (es : List (Campo × PyErr))
deriving DecidableEq, Repr

/-- The HTTP status each failure surfaces as. -/
def ApiError.status : ApiError → Nat
  | .notFound => 404
  | .validation _ => 422
  | .serverError _ => 500

/-- `crear_producto` (src/app/main.py lines 204-231): the body is validated
before the handler runs; the handler inserts, then builds the `Producto`
response (re-running the validators on the already-normalized fields). -/
def crear_producto (s : Store) (d : Datos) : Store × Except ApiError Producto :=
  match validarProducto d with
  | .error es => (s, .error (.validation es))
  | .ok f =>
    let r := insert_producto s f
    match mkProducto r.1 f with
    | .ok p => (r.2, .ok p)
    | .error es => (r.2, .error (.serverError es))

/-- `obtener_producto` (src/app/main.py lines 181-200): fetch by id, 404 when
absent, otherwise build the `Producto` response from the row. -/
def obtener_producto (s : Store) (pid : Nat) : Except ApiError Producto :=
  match fetch_producto_by_id s pid with
  | none => .error .notFound
  | some r =>
    match mkProducto r.1 r.2 with
    | .ok p => .ok p
    | .error es => .error (.serverError es)

/-- `actualizar_producto` (src/app/main.py lines 235-270): the body is
validated before the handler runs; the handler updates, 404 when the id is
absent, otherwise builds the `Producto` response. -/
def actualizar_producto (s : Store) (pid : Nat) (d : Datos) :
    Store × Except ApiError Producto :=
  match validarProducto d with
  | .error es => (s, .error (.validation es))
  | .ok f =>
    let r := update_producto s pid f
    if r.2 then
      match mkProducto pid f with
      | .ok p => (r.1, .ok p)
      | .error es => (r.1, .error (.serverError es))
    else (r.1, .error .notFound)

/-- `eliminar_producto` (src/app/main.py lines 274-290): delete by id, 404
when the id is absent, 204 (no body) on success. -/
def eliminar_producto (s : Store) (pid : Nat) : Store × Except ApiError Unit :=
  let r := delete_producto s pid
  if r.2 then (r.1, .ok ()) else (r.1, .error .notFound)

/-- `listar_productos` (src/app/main.py lines 168-177): every row mapped
through the `Producto` response model. -/
def listar_productos (s : Store) : Except ApiError (List Producto) :=
  match s.rows.mapM (fun r => mkProducto r.1 r.2) with
  | .ok ps => .ok ps
  | .error es => .error (.serverError es)

/-- A persistence-level operation on the store, for whole-trace statements. -/
inductive Op
  | insert (d : Datos)
  | update (pid : Nat) (d : Datos)
  | delete (pid : Nat)

/-- Run one operation; an insert also yields the id it assigned. -/
def applyOp (s : Store) : Op → Store × Option Nat
  | .insert d => ((insert_producto s d).2, some (insert_producto s d).1)
  | .update pid d => ((update_producto s pid d).1, none)
  | .delete pid => ((delete_producto s pid).1, none)

/-- The ids assigned by the inserts of a trace of operations, in order. -/
def assignedIds : Store → List Op → List Nat
  | _, [] => []
  | s, op :: ops =>
    match applyOp s op with
    | (s', some pid) => pid :: assignedIds s' ops
    | (s', none) => assignedIds s' ops

/-- A create request whose price 0.001 passes validation but rounds to 0. -/
def rawRedondeoCero : Datos :=
  ⟨strLit "Snail Cream", strLit "Serum", 1/1000, 10, none⟩

/-- The normalized payload of `rawRedondeoCero`: its stored price is 0. -/
def datosRedondeoCero : Datos :=
  ⟨strLit "Snail Cream", strLit "Serum", 0, 10, none⟩

/-- A stored row whose price 0.004 is not two-decimal rounded. -/
def filaPrecioMin : Datos :=
  ⟨strLit "Serum Facial", strLit "Serum", 1/250, 5, none⟩

/-- The `Producto` that the response model builds from `filaPrecioMin`:
its price has been re-rounded to 0. -/
def prodPrecioCero : Producto :=
  ⟨1, ⟨strLit "Serum Facial", strLit "Serum", 0, 5, none⟩⟩

/-- A fully valid update request body (the payload of tests/test_update_producto.py). -/
def updOK : Datos :=
  ⟨strLit "Producto modificado por el test", strLit "Serum", 35.99, 120,
   some (strLit "Descripcion actualizada desde test")⟩

/-- A create request with two invalid fields: name too short, price not positive. -/
def rawBad : Datos := ⟨strLit "ab", strLit "Serum", -5, 10, none⟩

/-! ### Character and string lemmas -/

theorem toUpperCode_toLowerCode (c : Nat) :
    toUpperCode (toLowerCode c) = toUpperCode c := by
  simp only [toLowerCode, toUpperCode]
  split_ifs <;> omega

theorem toLowerCode_toLowerCode (c : Nat) :
    toLowerCode (toLowerCode c) = toLowerCode c := by
  simp only [toLowerCode]
  split_ifs <;> omega

theorem toLowerCode_toUpperCode (c : Nat) :
    toLowerCode (toUpperCode c) = toLowerCode c := by
  simp only [toLowerCode, toUpperCode]
  split_ifs <;> omega

theorem isAlphaCode_toLowerCode (c : Nat) :
    isAlphaCode (toLowerCode c) = isAlphaCode c := by
  simp only [isAlphaCode, toLowerCode]
  split_ifs with h
  · rw [decide_eq_decide]; omega
  · rfl

theorem toLowerCode_of_not_alpha {c : Nat} (h : isAlphaCode c = false) :
    toLowerCode c = c := by
  simp only [isAlphaCode, decide_eq_false_iff_not] at h
  simp only [toLowerCode]
  split_ifs with h1
  · exact absurd (Or.inl h1) h
  · rfl

theorem titleAux_pyLower (l : PyStr) : ∀ b, titleAux b (pyLower l) = titleAux b l := by
  induction l with
  | nil => intro b; rfl
  | cons a t ih =>
    intro b
    have htail : titleAux (isAlphaCode a) (pyLower t) = titleAux (isAlphaCode a) t :=
      ih _
    simp only [pyLower, List.map_cons] at htail ⊢
    simp only [titleAux, isAlphaCode_toLowerCode, toLowerCode_toLowerCode,
      toUpperCode_toLowerCode]
    rw [htail]
    cases ha : isAlphaCode a with
    | false => simp [ha, toLowerCode_of_not_alpha ha]
    | true => simp [ha]

theorem pyTitle_pyLower (l : PyStr) : pyTitle (pyLower l) = pyTitle l :=
  titleAux_pyLower l false

theorem pyLower_titleAux (l : PyStr) : ∀ b, pyLower (titleAux b l) = pyLower l := by
  induction l with
  | nil => intro b; rfl
  | cons a t ih =>
    intro b
    have htail : pyLower (titleAux (isAlphaCode a) t) = pyLower t := ih _
    simp only [titleAux, pyLower, List.map_cons] at htail ⊢
    rw [htail]
    cases ha : isAlphaCode a <;> cases b <;>
      simp [ha, toLowerCode_toLowerCode, toLowerCode_toUpperCode]

theorem pyLower_pyTitle (l : PyStr) : pyLower (pyTitle l) = pyLower l :=
  pyLower_titleAux l false

theorem pyTitle_congr {a b : PyStr} (h : pyLower a = pyLower b) :
    pyTitle a = pyTitle b := by
  rw [← pyTitle_pyLower a, h, pyTitle_pyLower]

theorem dropWhile_dropWhile (p : Nat → Bool) (l : List Nat) :
    List.dropWhile p (List.dropWhile p l) = List.dropWhile p l := by
  induction l with
  | nil => rfl
  | cons a t ih =>
    rw [List.dropWhile_cons]
    split_ifs with h
    · exact ih
    · rw [List.dropWhile_cons, if_neg h]

theorem exists_append_dropWhile (p : Nat → Bool) (l : List Nat) :
    ∃ t, t ++ List.dropWhile p l = l := by
  induction l with
  | nil => exact ⟨[], rfl⟩
  | cons a t ih =>
    rw [List.dropWhile_cons]
    split_ifs with h
    · obtain ⟨u, hu⟩ := ih
      exact ⟨a :: u, by simp [hu]⟩
    · exact ⟨[], rfl⟩

theorem head_dropWhile_false {p : Nat → Bool} {l t : List Nat} {a : Nat}
    (h : List.dropWhile p l = a :: t) : p a = false := by
  induction l with
  | nil => simp at h
  | cons b u ih =>
    rw [List.dropWhile_cons] at h
    split_ifs at h with hb
    · exact ih h
    · cases h
      simpa using hb

theorem pyStrip_idem (s : PyStr) : pyStrip (pyStrip s) = pyStrip s := by
  unfold pyStrip
  generalize ht : s.dropWhile isSpaceCode = t
  generalize hd : t.reverse.dropWhile isSpaceCode = d
  have h1 : d.reverse.dropWhile isSpaceCode = d.reverse := by
    obtain ⟨pre, hpre⟩ := exists_append_dropWhile isSpaceCode t.reverse
    rw [hd] at hpre
    have hprefix : d.reverse ++ pre.reverse = t := by
      have h2 := congrArg List.reverse hpre
      simpa using h2
    rcases hu : d.reverse with _ | ⟨a, u⟩
    · rfl
    · have hta : List.dropWhile isSpaceCode s = a :: (u ++ pre.reverse) := by
        rw [ht, ← hprefix, hu, List.cons_append]
      have hpa : isSpaceCode a = false := head_dropWhile_false hta
      rw [List.dropWhile_cons, if_neg (by simp [hpa])]
  have h2 : d.reverse.reverse.dropWhile isSpaceCode = d := by
    rw [List.reverse_reverse, ← hd, dropWhile_dropWhile]
  rw [h1, h2]

/-! ### Rounding lemmas -/

theorem roundHalfEven_intCast (n : ℤ) : roundHalfEven (n : ℚ) = n := by
  simp only [roundHalfEven, Int.floor_intCast]
  norm_num

theorem pyRound2_idem (q : ℚ) : pyRound2 (pyRound2 q) = pyRound2 q := by
  unfold pyRound2
  rw [div_mul_cancel₀ _ (by norm_num : (100 : ℚ) ≠ 0), roundHalfEven_intCast]

theorem roundHalfEven_nonneg {q : ℚ} (h : 0 ≤ q) : 0 ≤ roundHalfEven q := by
  have h0 : (0 : ℤ) ≤ ⌊q⌋ := Int.floor_nonneg.mpr h
  simp only [roundHalfEven]
  split_ifs <;> omega

theorem roundHalfEven_le {q : ℚ} {n : ℤ} (h : q ≤ n) : roundHalfEven q ≤ n := by
  have hf : ⌊q⌋ ≤ n := by
    have := Int.floor_le_floor h
    simpa using this
  simp only [roundHalfEven]
  split_ifs with h1 h2 h3
  · exact hf
  · -- 1/2 < q - ⌊q⌋ forces ⌊q⌋ < n
    have hlt : (⌊q⌋ : ℚ) < n := by
      have hfl : (⌊q⌋ : ℚ) ≤ q := Int.floor_le q
      linarith
    have : ⌊q⌋ < n := by exact_mod_cast hlt
    omega
  · exact hf
  · -- the tie case: q - ⌊q⌋ = 1/2, again ⌊q⌋ < n
    have hge : (1 : ℚ)/2 ≤ q - ⌊q⌋ := le_of_not_lt h1
    have hlt : (⌊q⌋ : ℚ) < n := by linarith
    have : ⌊q⌋ < n := by exact_mod_cast hlt
    omega

theorem pyRound2_nonneg {q : ℚ} (h : 0 ≤ q) : 0 ≤ pyRound2 q := by
  unfold pyRound2
  have := roundHalfEven_nonneg (q := q * 100) (by positivity)
  positivity

theorem pyRound2_le_of_le {q b : ℚ} {n : ℤ} (hb : (n : ℚ) = b * 100) (h : q ≤ b) :
    pyRound2 q ≤ b := by
  unfold pyRound2
  have hle : roundHalfEven (q * 100) ≤ n := roundHalfEven_le (by rw [hb]; linarith)
  have hc : (roundHalfEven (q * 100) : ℚ) ≤ n := by exact_mod_cast hle
  rw [div_le_iff₀ (by norm_num : (0:ℚ) < 100)]
  linarith [hb ▸ hc]

/-! ### Validator component lemmas -/

theorem validar_nombre_ok {v r : PyStr} (h : validar_nombre v = .ok r) :
    r = pyStrip v ∧ 3 ≤ r.length ∧ r.length ≤ 150 := by
  unfold validar_nombre at h
  split_ifs at h with h1 h2 h3
  cases h
  exact ⟨rfl, by omega, by omega⟩

theorem validar_nombre_accepts {v : PyStr}
    (h3 : 3 ≤ (pyStrip v).length) (h150 : (pyStrip v).length ≤ 150) :
    validar_nombre v = .ok (pyStrip v) := by
  have hne : pyStrip v ≠ [] := by
    intro he; rw [he] at h3; simp at h3
  have hv : v ≠ [] := by
    intro he; subst he; exact hne rfl
  unfold validar_nombre
  rw [if_neg (by simp [hv, hne]), if_neg (by omega), if_neg (by omega)]

theorem categorias_lower_ne_nil : ∀ c ∈ categorias_validas, pyLower c ≠ [] := by
  decide

theorem categorias_title_fixed : ∀ c ∈ categorias_validas, pyTitle c = c := by
  decide

theorem validar_categoria_ok {v r : PyStr} (h : validar_categoria v = .ok r) :
    r ∈ categorias_validas ∧ pyLower (pyStrip v) = pyLower r ∧
      r = pyTitle (pyStrip v) := by
  unfold validar_categoria at h
  split_ifs at h with h1 h2
  cases h
  exact ⟨h2, (pyLower_pyTitle (pyStrip v)).symm, rfl⟩

theorem validar_categoria_accepts {v c : PyStr} (hc : c ∈ categorias_validas)
    (h : pyLower (pyStrip v) = pyLower c) :
    validar_categoria v = .ok c := by
  have htc : pyTitle (pyStrip v) = c := by
    rw [pyTitle_congr h, categorias_title_fixed c hc]
  have hsne : pyStrip v ≠ [] := by
    intro he
    apply categorias_lower_ne_nil c hc
    rw [← h, he]; rfl
  have hv : v ≠ [] := by
    intro he; subst he; exact hsne rfl
  unfold validar_categoria
  rw [if_neg (by simp [hv, hsne]), if_pos (htc ▸ hc), htc]

theorem validar_precio_ok {v r : ℚ} (h : validar_precio v = .ok r) :
    0 < v ∧ v ≤ 999.99 ∧ r = pyRound2 v := by
  unfold validar_precio at h
  split_ifs at h with h1 h2
  cases h
  exact ⟨by linarith [not_le.mp h1], by linarith [not_lt.mp h2], rfl⟩

theorem validar_precio_accepts {v : ℚ} (h0 : 0 < v) (h1 : v ≤ 999.99) :
    validar_precio v = .ok (pyRound2 v) := by
  unfold validar_precio
  rw [if_neg (by linarith), if_neg (by simp only [not_lt]; linarith)]

theorem validar_precio_rejects {v : ℚ} (h : v ≤ 0 ∨ 999.99 < v) :
    (validar_precio v).isOk = false := by
  unfold validar_precio
  rcases h with h | h
  · rw [if_pos h]; rfl
  · rw [if_neg (by linarith), if_pos h]; rfl

theorem validar_stock_ok {v r : ℤ} (h : validar_stock v = .ok r) :
    r = v ∧ 0 ≤ r ∧ r ≤ 9999 := by
  unfold validar_stock at h
  split_ifs at h with h1 h2
  cases h
  exact ⟨rfl, by omega, by omega⟩

theorem validar_descripcion_ok {v r : Option PyStr}
    (h : validar_descripcion v = .ok r) :
    r = none ∨ ∃ u, r = some u ∧ pyStrip u = u ∧ u ≠ [] ∧ u.length ≤ 500 := by
  match v with
  | none =>
    simp only [validar_descripcion] at h
    cases h; exact Or.inl rfl
  | some s =>
    simp only [validar_descripcion] at h
    split_ifs at h with h1 h2
    · cases h; exact Or.inl rfl
    · cases h
      exact Or.inr ⟨pyStrip s, rfl, pyStrip_idem s, h1, by omega⟩

/-! ### Aggregated validation lemmas -/

theorem mem_campos (c : Campo) : c ∈ campos := by
  cases c <;> decide

theorem errOpt_eq_none {α : Type} {e : Except PyErr α} (h : errOpt e = none) :
    ∃ a, e = .ok a := by
  cases e with
  | error m => cases h
  | ok a => exact ⟨a, rfl⟩

theorem mem_erroresDe {d : Datos} {c : Campo} {m : PyErr}
    (h : fieldMsg d c = some m) : (c, m) ∈ erroresDe d := by
  simp only [erroresDe, List.mem_filterMap]
  exact ⟨c, mem_campos c, by rw [h]; rfl⟩

theorem erroresDe_eq_nil_iff (d : Datos) :
    erroresDe d = [] ↔ ∀ c, fieldMsg d c = none := by
  constructor
  · intro h c
    rcases hm : fieldMsg d c with _ | m
    · rfl
    · exact absurd (h ▸ mem_erroresDe hm) (List.not_mem_nil _)
  · intro h
    simp [erroresDe, campos, h]

theorem validarProducto_ok_of_none (d : Datos) (h : ∀ c, fieldMsg d c = none) :
    ∃ f, validarProducto d = .ok f := by
  obtain ⟨n, hn⟩ := errOpt_eq_none (h .nombre)
  obtain ⟨c, hc⟩ := errOpt_eq_none (h .categoria)
  obtain ⟨p, hp⟩ := errOpt_eq_none (h .precio)
  obtain ⟨st, hs⟩ := errOpt_eq_none (h .stock)
  obtain ⟨de, hde⟩ := errOpt_eq_none (h .descripcion)
  exact ⟨⟨n, c, p, st, de⟩, by simp only [validarProducto, hn, hc, hp, hs, hde]⟩

theorem validarProducto_error {d : Datos} {es : List (Campo × PyErr)}
    (h : validarProducto d = .error es) : es = erroresDe d ∧ es ≠ [] := by
  have hes : es = erroresDe d := by
    rcases hn : validar_nombre d.nombre with en | n <;>
    rcases hc : validar_categoria d.categoria with ec | c <;>
    rcases hp : validar_precio d.precio with ep | p <;>
    rcases hs : validar_stock d.stock with est | st <;>
    rcases hde : validar_descripcion d.descripcion with ed | de <;>
    simp only [validarProducto, hn, hc, hp, hs, hde, Except.error.injEq] at h <;>
    first
      | exact h.symm
      | cases h
  refine ⟨hes, ?_⟩
  intro he
  have h0 : erroresDe d = [] := by rw [← hes, he]
  obtain ⟨f, hf⟩ := validarProducto_ok_of_none d ((erroresDe_eq_nil_iff d).mp h0)
  rw [hf] at h
  cases h

theorem validarProducto_ok {d f : Datos} (h : validarProducto d = .ok f) :
    validar_nombre d.nombre = .ok f.nombre
    ∧ validar_categoria d.categoria = .ok f.categoria
    ∧ validar_precio d.precio = .ok f.precio
    ∧ validar_stock d.stock = .ok f.stock
    ∧ validar_descripcion d.descripcion = .ok f.descripcion := by
  rcases hn : validar_nombre d.nombre with en | n <;>
  rcases hc : validar_categoria d.categoria with ec | c <;>
  rcases hp : validar_precio d.precio with ep | p <;>
  rcases hs : validar_stock d.stock with est | st <;>
  rcases hde : validar_descripcion d.descripcion with ed | de <;>
  simp only [validarProducto, hn, hc, hp, hs, hde, Except.ok.injEq] at h <;>
  first
    | (subst h; exact ⟨rfl, rfl, rfl, rfl, rfl⟩)
    | cases h

theorem mem_fst_erroresDe (d : Datos) (c : Campo) :
    c ∈ (erroresDe d).map Prod.fst ↔ fieldMsg d c ≠ none := by
  constructor
  · intro h
    rw [List.mem_map] at h
    obtain ⟨x, hx, hfst⟩ := h
    simp only [erroresDe, List.mem_filterMap] at hx
    obtain ⟨a, _, hg⟩ := hx
    rcases hm : fieldMsg d a with _ | m
    · rw [hm] at hg; cases hg
    · rw [hm] at hg
      cases hg
      cases hfst
      rw [hm]
      exact Option.some_ne_none m
  · intro h
    rcases hm : fieldMsg d c with _ | m
    · exact absurd hm h
    · exact List.mem_map.mpr ⟨(c, m), mem_erroresDe hm, rfl⟩

/-! ### Claim theorems: the single-field validators -/

/-- C2: a category input is rejected exactly when its trimmed value does not
case-insensitively match one of the fixed ten categories {Serum, Cleanser,
Moisturizer, Toner, Sunscreen, Mask, Exfoliator, Eye Cream, Ampoule,
Essence}; on a match the stored value is that set element itself (the
title-cased canonical form), whatever the input casing. -/
theorem C2_categoria_canonica (v : PyStr) :
    (∀ c ∈ categorias_validas, pyLower (pyStrip v) = pyLower c →
        validar_categoria v = .ok c)
    ∧ ((∀ c ∈ categorias_validas, pyLower (pyStrip v) ≠ pyLower c) →
        (validar_categoria v).isOk = false) := by
  constructor
  · exact fun c hc h => validar_categoria_accepts hc h
  · intro hall
    rcases hok : validar_categoria v with e | r
    · rfl
    · obtain ⟨hr, hlow, _⟩ := validar_categoria_ok hok
      exact absurd hlow (hall r hr)

/-- Witness for C2: the input "  SERUM " matches and is stored as "Serum". -/
theorem C2_categoria_canonica_witness :
    validar_categoria (strLit "  SERUM ") = .ok (strLit "Serum") :=
  (C2_categoria_canonica (strLit "  SERUM ")).1 (strLit "Serum")
    (by decide) (by decide)

/-- C3: a price is rejected exactly when it is at most 0 or above 999.99;
every accepted price is stored as the input rounded to two decimals. -/
theorem C3_precio_redondeado (v : ℚ) :
    (0 < v ∧ v ≤ 999.99 → validar_precio v = .ok (pyRound2 v))
    ∧ (v ≤ 0 ∨ 999.99 < v → (validar_precio v).isOk = false) :=
  ⟨fun h => validar_precio_accepts h.1 h.2, validar_precio_rejects⟩

/-- Witness for C3: the price 28.5 is accepted and stored rounded. -/
theorem C3_precio_redondeado_witness :
    validar_precio (57/2) = .ok (pyRound2 (57/2)) :=
  (C3_precio_redondeado (57/2)).1 ⟨by norm_num, by norm_num⟩

/-- C5: a name is rejected exactly when its trimmed value is empty, shorter
than 3 characters or longer than 150; every accepted name is stored trimmed. -/
theorem C5_nombre_recortado (v : PyStr) :
    (3 ≤ (pyStrip v).length ∧ (pyStrip v).length ≤ 150 →
        validar_nombre v = .ok (pyStrip v))
    ∧ (¬(3 ≤ (pyStrip v).length ∧ (pyStrip v).length ≤ 150) →
        (validar_nombre v).isOk = false) := by
  constructor
  · exact fun h => validar_nombre_accepts h.1 h.2
  · intro h
    rcases hok : validar_nombre v with e | r
    · rfl
    · obtain ⟨hr, h3, h150⟩ := validar_nombre_ok hok
      subst hr
      exact absurd ⟨h3, h150⟩ h

/-- Witness for C5: a padded name is accepted and stored trimmed. -/
theorem C5_nombre_recortado_witness :
    validar_nombre (strLit "  COSRX Advanced Snail 92 All In One Cream ") =
      .ok (pyStrip (strLit "  COSRX Advanced Snail 92 All In One Cream ")) :=
  (C5_nombre_recortado (strLit "  COSRX Advanced Snail 92 All In One Cream ")).1
    ⟨by decide, by decide⟩

/-- C6: a missing description, or one that trims to empty, is normalized to
absent (never an empty string); otherwise it is rejected exactly when its
trimmed value exceeds 500 characters, and stored trimmed when accepted. -/
theorem C6_descripcion_normalizada (v : Option PyStr) (s : PyStr) :
    (v = none → validar_descripcion v = .ok none)
    ∧ (v = some s → pyStrip s = [] → validar_descripcion v = .ok none)
    ∧ (v = some s → pyStrip s ≠ [] → (pyStrip s).length ≤ 500 →
        validar_descripcion v = .ok (some (pyStrip s)))
    ∧ (v = some s → 500 < (pyStrip s).length →
        (validar_descripcion v).isOk = false) := by
  refine ⟨?_, ?_, ?_, ?_⟩
  · rintro rfl; rfl
  · rintro rfl h
    simp [validar_descripcion, h]
  · rintro rfl h h500
    simp only [validar_descripcion]
    rw [if_neg h, if_neg (by omega)]
  · rintro rfl h500
    have hne : pyStrip s ≠ [] := by
      intro he; rw [he] at h500; simp at h500
    simp only [validar_descripcion]
    rw [if_neg hne, if_pos (by omega)]
    rfl

/-- Witness for C6: a padded description is accepted and stored trimmed. -/
theorem C6_descripcion_normalizada_witness :
    validar_descripcion (some (strLit "  Crema con mucina de caracol  ")) =
      .ok (some (pyStrip (strLit "  Crema con mucina de caracol  "))) :=
  (C6_descripcion_normalizada
      (some (strLit "  Crema con mucina de caracol  "))
      (strLit "  Crema con mucina de caracol  ")).2.2.1
    rfl (by decide) (by decide)

/-- C9: the 999.99 upper bound is checked on the raw price before rounding:
every price above 999.99 is rejected, in particular 999.994, even though its
value rounded to two decimals is exactly 999.99. -/
theorem C9_cota_antes_de_redondeo (v : ℚ) (h : 999.99 < v) :
    (validar_precio v).isOk = false
    ∧ pyRound2 (999.994 : ℚ) = 999.99
    ∧ (validar_precio (999.994 : ℚ)).isOk = false := by
  refine ⟨validar_precio_rejects (Or.inr h), ?_,
    validar_precio_rejects (Or.inr (by norm_num))⟩
  have hf : ⌊(999.994 : ℚ) * 100⌋ = 99999 := by norm_num
  simp only [pyRound2, roundHalfEven]
  rw [hf, if_pos (by norm_num)]
  norm_num

/-- Witness for C9, at the price 999.994. -/
theorem C9_cota_antes_de_redondeo_witness :
    (validar_precio (999.994 : ℚ)).isOk = false
    ∧ pyRound2 (999.994 : ℚ) = 999.99
    ∧ (validar_precio (999.994 : ℚ)).isOk = false :=
  C9_cota_antes_de_redondeo (999.994 : ℚ) (by norm_num)

/-! ### Claim theorems: aggregated errors, not-found paths, id freshness -/

/-- C8: on an invalid create or update request the caller receives the single
aggregated error list, which names a field exactly when that field's
validator failed; the handler body never runs, so the store is unchanged and
no persistence operation is invoked. -/
theorem C8_error_agregado (s : Store) (pid : Nat) (d : Datos)
    (es : List (Campo × PyErr)) (h : validarProducto d = .error es) :
    es ≠ []
    ∧ (∀ c : Campo, c ∈ es.map Prod.fst ↔ fieldMsg d c ≠ none)
    ∧ crear_producto s d = (s, .error (.validation es))
    ∧ actualizar_producto s pid d = (s, .error (.validation es))
    ∧ (ApiError.validation es).status = 422 := by
  obtain ⟨hes, hne⟩ := validarProducto_error h
  subst hes
  refine ⟨hne, fun c => mem_fst_erroresDe d c, ?_, ?_, rfl⟩
  · simp [crear_producto, h]
  · simp [actualizar_producto, h]

/-- Witness for C8: a request with a too-short name and non-positive price is
rejected with the aggregated error list and the store is untouched. -/
theorem C8_error_agregado_witness :
    crear_producto glowyInit rawBad =
      (glowyInit, .error (.validation (erroresDe rawBad))) :=
  (C8_error_agregado glowyInit 1 rawBad (erroresDe rawBad) (by rfl)).2.2.1

/-- The rounded value of the price 35.99 is 35.99 itself. -/
theorem pyRound2_updOK : pyRound2 (35.99 : ℚ) = 35.99 := by
  have hf : ⌊(35.99 : ℚ) * 100⌋ = 3599 := by norm_num
  simp only [pyRound2, roundHalfEven]
  rw [hf, if_pos (by norm_num)]
  norm_num

/-- The price 35.99 is accepted and kept unchanged by rounding. -/
theorem validar_precio_updOK : validar_precio (35.99 : ℚ) = .ok (35.99 : ℚ) := by
  rw [validar_precio_accepts (by norm_num) (by norm_num), pyRound2_updOK]

/-- The payload `updOK` is fully valid and already normalized. -/
theorem validarProducto_updOK : validarProducto updOK = .ok updOK := by
  have hn : validar_nombre (strLit "Producto modificado por el test") =
      .ok (strLit "Producto modificado por el test") := by rfl
  have hc : validar_categoria (strLit "Serum") = .ok (strLit "Serum") := by rfl
  have hs : validar_stock 120 = .ok 120 := by rfl
  have hd : validar_descripcion (some (strLit "Descripcion actualizada desde test")) =
      .ok (some (strLit "Descripcion actualizada desde test")) := by rfl
  simp only [validarProducto, updOK]
  rw [hn, hc, validar_precio_updOK, hs, hd]

/-- C4: updating or deleting an id with no matching row is a pure not-found:
both persistence operations report failure without writing, and both
endpoints surface HTTP 404 with the store unchanged. -/
theorem C4_no_encontrado (s : Store) (pid : Nat) (d f : Datos)
    (hv : validarProducto d = .ok f)
    (h : ∀ r ∈ s.rows, r.1 ≠ pid) :
    update_producto s pid f = (s, false)
    ∧ delete_producto s pid = (s, false)
    ∧ actualizar_producto s pid d = (s, .error .notFound)
    ∧ eliminar_producto s pid = (s, .error .notFound)
    ∧ ApiError.notFound.status = 404 := by
  have hany : s.rows.any (fun r => r.1 == pid) = false := by
    by_contra hb
    rw [Bool.not_eq_false, List.any_eq_true] at hb
    obtain ⟨r, hr, hbeq⟩ := hb
    exact h r hr (by simpa using hbeq)
  have hu : update_producto s pid f = (s, false) := by
    simp [update_producto, hany]
  have hd2 : delete_producto s pid = (s, false) := by
    simp [delete_producto, hany]
  refine ⟨hu, hd2, ?_, ?_, rfl⟩
  · simp only [actualizar_producto, hv]
    simp [hu]
  · simp [eliminar_producto, hd2]

/-- Witness for C4: on a fresh store, id 999999 gives 404 for both update and
delete, and the store is unchanged. -/
theorem C4_no_encontrado_witness :
    actualizar_producto glowyInit 999999 updOK = (glowyInit, .error .notFound)
    ∧ eliminar_producto glowyInit 999999 = (glowyInit, .error .notFound) := by
  have h := C4_no_encontrado glowyInit 999999 updOK updOK validarProducto_updOK
    (by simp [glowyInit])
  exact ⟨h.2.2.1, h.2.2.2.1⟩

theorem nextId_le_applyOp (s : Store) (op : Op) :
    s.nextId ≤ (applyOp s op).1.nextId := by
  cases op with
  | insert d => simp only [applyOp, insert_producto]; omega
  | update pid d =>
    simp only [applyOp, update_producto]
    split <;> simp
  | delete pid =>
    simp only [applyOp, delete_producto]
    split <;> simp

theorem le_assignedIds (ops : List Op) :
    ∀ (s : Store), ∀ i ∈ assignedIds s ops, s.nextId ≤ i := by
  induction ops with
  | nil => intro s i hi; simp [assignedIds] at hi
  | cons op ops ih =>
    intro s i hi
    cases op with
    | insert d =>
      simp only [assignedIds, applyOp, insert_producto] at hi
      rcases List.mem_cons.mp hi with hi | hi
      · omega
      · have := ih _ i hi
        simp only at this
        omega
    | update pid d =>
      simp only [assignedIds, applyOp] at hi
      have h1 := ih _ i hi
      have h2 : s.nextId ≤ (update_producto s pid d).1.nextId := by
        simpa [applyOp] using nextId_le_applyOp s (.update pid d)
      omega
    | delete pid =>
      simp only [assignedIds, applyOp] at hi
      have h1 := ih _ i hi
      have h2 : s.nextId ≤ (delete_producto s pid).1.nextId := by
        simpa [applyOp] using nextId_le_applyOp s (.delete pid)
      omega

theorem pairwise_assignedIds (ops : List Op) :
    ∀ (s : Store), (assignedIds s ops).Pairwise (· < ·) := by
  induction ops with
  | nil => intro s; simp [assignedIds]
  | cons op ops ih =>
    intro s
    cases op with
    | insert d =>
      simp only [assignedIds, applyOp, insert_producto]
      refine List.Pairwise.cons ?_ (ih _)
      intro i hi
      have h1 := le_assignedIds ops _ i hi
      simp only at h1
      omega
    | update pid d => simpa [assignedIds, applyOp] using ih _
    | delete pid => simpa [assignedIds, applyOp] using ih _

/-- C7: along any trace of store operations, the ids handed out by the
inserts are pairwise distinct - an id is never reassigned, even after the
row that carried it has been deleted. -/
theorem C7_ids_nunca_reutilizados (s : Store) (ops : List Op) :
    (assignedIds s ops).Nodup :=
  (pairwise_assignedIds ops s).imp fun hlt => Nat.ne_of_lt hlt

/-! ### Claim theorems: the price-rounding divergence -/

/-- C1 fails on the code: the price 0.001 passes validation (it is positive
and below the cap) but rounds to 0.00, so insert stores a row with price 0;
getById on the assigned id then fails, because rebuilding the `Producto`
response re-runs `validar_precio` on the stored 0 and rejects it.  The
insert-then-getById round trip does not return the normalized product. -/
theorem C1_insercion_no_recuperable :
    validarProducto rawRedondeoCero = .ok datosRedondeoCero
    ∧ datosRedondeoCero.precio = 0
    ∧ (crear_producto glowyInit rawRedondeoCero).1.rows = [(1, datosRedondeoCero)]
    ∧ (fetch_producto_by_id (crear_producto glowyInit rawRedondeoCero).1 1).isSome
        = true
    ∧ (obtener_producto (crear_producto glowyInit rawRedondeoCero).1 1).isOk
        = false := by
  have hr0 : pyRound2 (1/1000 : ℚ) = 0 := by
    have hf : ⌊(1/1000 : ℚ) * 100⌋ = 0 := by norm_num
    simp only [pyRound2, roundHalfEven]
    rw [hf, if_pos (by norm_num)]
    norm_num
  have hp : validar_precio (1/1000 : ℚ) = .ok 0 := by
    rw [validar_precio_accepts (by norm_num) (by norm_num), hr0]
  have hn : validar_nombre (strLit "Snail Cream") = .ok (strLit "Snail Cream") := by
    rfl
  have hc : validar_categoria (strLit "Serum") = .ok (strLit "Serum") := by rfl
  have hs : validar_stock 10 = .ok 10 := by rfl
  have hde : validar_descripcion none = .ok none := rfl
  have hv : validarProducto rawRedondeoCero = .ok datosRedondeoCero := by
    simp only [validarProducto, rawRedondeoCero]
    rw [hn, hc, hp, hs, hde]
    rfl
  have hp0 : validar_precio (0 : ℚ) = .error "El precio debe ser mayor a 0" := by
    unfold validar_precio
    rw [if_pos le_rfl]
  have hv2 : validarProducto datosRedondeoCero =
      .error (erroresDe datosRedondeoCero) := by
    simp only [validarProducto, datosRedondeoCero]
    rw [hn, hc, hp0, hs, hde]
  have hstore : (crear_producto glowyInit rawRedondeoCero).1 =
      ⟨[(1, datosRedondeoCero)], 2⟩ := by
    simp only [crear_producto, hv, insert_producto, mkProducto, hv2, glowyInit]
    rfl
  refine ⟨hv, rfl, ?_, ?_, ?_⟩
  · rw [hstore]
  · rw [hstore]; rfl
  · rw [hstore]
    have hfetch : fetch_producto_by_id (⟨[(1, datosRedondeoCero)], 2⟩ : Store) 1 =
        some (1, datosRedondeoCero) := by rfl
    simp only [obtener_producto, hfetch, mkProducto, hv2]
    rfl

/-- Counterexample to C10 as stated: the row `filaPrecioMin` violates the
stored-price constraints (its price 0.004 is not two-decimal rounded), yet
the response model accepts it and returns a `Producto` whose price is 0,
violating the strict positivity constraint, instead of failing. -/
theorem C10_fila_invalida_aceptada :
    mkProducto 1 filaPrecioMin = .ok prodPrecioCero
    ∧ prodPrecioCero.datos.precio ≤ 0
    ∧ filaPrecioMin.precio ≠ pyRound2 filaPrecioMin.precio := by
  have hr : pyRound2 (1/250 : ℚ) = 0 := by
    have hf : ⌊(1/250 : ℚ) * 100⌋ = 0 := by norm_num
    simp only [pyRound2, roundHalfEven]
    rw [hf, if_pos (by norm_num)]
    norm_num
  have hp : validar_precio (1/250 : ℚ) = .ok 0 := by
    rw [validar_precio_accepts (by norm_num) (by norm_num), hr]
  have hn : validar_nombre (strLit "Serum Facial") = .ok (strLit "Serum Facial") := by
    rfl
  have hc : validar_categoria (strLit "Serum") = .ok (strLit "Serum") := by rfl
  have hs : validar_stock 5 = .ok 5 := by rfl
  have hde : validar_descripcion none = .ok none := rfl
  have hv : validarProducto filaPrecioMin = .ok prodPrecioCero.datos := by
    simp only [validarProducto, filaPrecioMin]
    rw [hn, hc, hp, hs, hde]
    rfl
  refine ⟨?_, le_refl 0, ?_⟩
  · simp only [mkProducto, hv]
    rfl
  · simp only [filaPrecioMin]
    rw [hr]
    norm_num

/-- C10 amended: every `Producto` the response model does return satisfies
every field constraint except strict price positivity - the name is trimmed
with length 3 to 150, the category is one of the ten canonical values, the
price is a two-decimal value in [0, 999.99] (it can be 0 when the row price
rounds down to 0), the stock is in [0, 9999], and the description is absent
or trimmed, nonempty and at most 500 characters. -/
theorem C10_producto_valido_salvo_precio (pid : Nat) (f : Datos) (p : Producto)
    (h : mkProducto pid f = .ok p) :
    p.id = pid
    ∧ pyStrip p.datos.nombre = p.datos.nombre
    ∧ 3 ≤ p.datos.nombre.length ∧ p.datos.nombre.length ≤ 150
    ∧ p.datos.categoria ∈ categorias_validas
    ∧ 0 ≤ p.datos.precio ∧ p.datos.precio ≤ 999.99
    ∧ pyRound2 p.datos.precio = p.datos.precio
    ∧ 0 ≤ p.datos.stock ∧ p.datos.stock ≤ 9999
    ∧ (p.datos.descripcion = none ∨
        ∃ u, p.datos.descripcion = some u ∧ pyStrip u = u ∧ u ≠ [] ∧
          u.length ≤ 500) := by
  rcases hv : validarProducto f with es | g
  · simp [mkProducto, hv] at h
  · simp only [mkProducto, hv, Except.ok.injEq] at h
    subst h
    obtain ⟨hn, hc, hp, hs, hde⟩ := validarProducto_ok hv
    obtain ⟨hnr, hn3, hn150⟩ := validar_nombre_ok hn
    obtain ⟨hcm, -, -⟩ := validar_categoria_ok hc
    obtain ⟨hp0, hp999, hpr⟩ := validar_precio_ok hp
    obtain ⟨-, hs0, hs9999⟩ := validar_stock_ok hs
    refine ⟨rfl, ?_, hn3, hn150, hcm, ?_, ?_, ?_, hs0, hs9999,
      validar_descripcion_ok hde⟩
    · show pyStrip g.nombre = g.nombre
      rw [hnr, pyStrip_idem]
    · show (0 : ℚ) ≤ g.precio
      rw [hpr]
      exact pyRound2_nonneg (le_of_lt hp0)
    · show g.precio ≤ 999.99
      rw [hpr]
      exact @pyRound2_le_of_le f.precio 999.99 99999 (by norm_num) hp999
    · show pyRound2 g.precio = g.precio
      rw [hpr, pyRound2_idem]

/-- Witness for the amended C10, at a fully valid row. -/
theorem C10_producto_valido_salvo_precio_witness :
    (Producto.mk 1 updOK).datos.categoria ∈ categorias_validas :=
  (C10_producto_valido_salvo_precio 1 updOK ⟨1, updOK⟩
    (by simp only [mkProducto, validarProducto_updOK])).2.2.2.2.1

end Glowy
